import Mathlib

/-!
Shallow embedding of the issue-triage engine of the `mcb` repository:
`scripts/fix_smells.py` (SARIF smell analyser, filter pipeline, plan /
fix dispatch) and the `scripts/qlty` package (`model.py`, `parser.py`,
`report.py`).

Modelling conventions:
* Python `str` is modelled as `List Char` (`Str`); Python `int` as `Int`;
  Python `float` as `ℚ` (all arithmetic in the scored formulas is on
  exact decimal constants, so rationals are a faithful denotation).
* Python dicts carrying data are association lists; `d.get(k, default)`
  is `(List.lookup k d).getD default`.
* JSON optionality (`d.get("k", default)`) is `Option` plus `getD`.
-/

/-- Python `str` modelled as a list of characters. -/
abbrev Str := List Char

/-- Python `str.lower()` (ASCII-faithful). -/
def toLowerStr (s : Str) : Str := s.map Char.toLower

/-- Python `str.upper()` (ASCII-faithful). -/
def toUpperStr (s : Str) : Str := s.map Char.toUpper

/-- Python `needle in hay` substring containment test. -/
def containsSub (hay needle : Str) : Bool :=
  hay.tails.any (fun t => needle.isPrefixOf t)

/-- Python string `<=`: lexicographic comparison by code point. -/
def strLe : Str → Str → Bool
  | [], _ => true
  | _ :: _, [] => false
  | a :: as, b :: bs =>
    if a < b then true
    else if b < a then false
    else strLe as bs

namespace FixSmells

/-- `Priority(IntEnum)` from `fix_smells.py`: lower ordinal = fix first. -/
inductive Priority where
  | CRITICAL
  | HIGH
  | MEDIUM
  | LOW
  | INFO
deriving DecidableEq, Repr

/-- The `IntEnum` ordinal of each priority (CRITICAL = 1 … INFO = 5). -/
def Priority.ord : Priority → Int
  | .CRITICAL => 1
  | .HIGH => 2
  | .MEDIUM => 3
  | .LOW => 4
  | .INFO => 5

/-- Members of `Priority` in Python iteration (definition) order. -/
def priorityList : List Priority :=
  [.CRITICAL, .HIGH, .MEDIUM, .LOW, .INFO]

/-- The `RULE_PRIORITY` table of `fix_smells.py`. -/
def RULE_PRIORITY : List (Str × Priority) :=
  [("identical-code".toList, .CRITICAL),
   ("similar-code".toList, .HIGH),
   ("function-complexity".toList, .MEDIUM),
   ("method-complexity".toList, .MEDIUM),
   ("cognitive-complexity".toList, .MEDIUM),
   ("file-complexity".toList, .MEDIUM),
   ("nested-control-flow".toList, .MEDIUM),
   ("deep-nesting".toList, .MEDIUM),
   ("long-method".toList, .MEDIUM),
   ("large-class".toList, .MEDIUM),
   ("boolean-logic".toList, .LOW),
   ("complex-condition".toList, .LOW),
   ("function-parameters".toList, .LOW),
   ("too-many-arguments".toList, .LOW),
   ("return-statements".toList, .LOW),
   ("god-class".toList, .HIGH),
   ("feature-envy".toList, .MEDIUM),
   ("data-clump".toList, .MEDIUM)]

/-- The `_LANG_MAP` extension → language table of `fix_smells.py`. -/
def LANG_MAP : List (Str × Str) :=
  [(".rs".toList, "rust".toList),
   (".py".toList, "python".toList),
   (".pyi".toList, "python".toList),
   (".ts".toList, "typescript".toList),
   (".tsx".toList, "typescript".toList),
   (".js".toList, "javascript".toList),
   (".jsx".toList, "javascript".toList),
   (".mjs".toList, "javascript".toList),
   (".cjs".toList, "javascript".toList),
   (".go".toList, "go".toList),
   (".java".toList, "java".toList),
   (".cs".toList, "csharp".toList),
   (".rb".toList, "ruby".toList),
   (".kt".toList, "kotlin".toList),
   (".kts".toList, "kotlin".toList),
   (".swift".toList, "swift".toList),
   (".cpp".toList, "cpp".toList),
   (".cc".toList, "cpp".toList),
   (".cxx".toList, "cpp".toList),
   (".c".toList, "c".toList),
   (".h".toList, "c".toList),
   (".hpp".toList, "hpp".toList),
   (".scala".toList, "scala".toList),
   (".php".toList, "php".toList),
   (".lua".toList, "lua".toList),
   (".ex".toList, "elixir".toList),
   (".exs".toList, "elixir".toList),
   (".dart".toList, "dart".toList),
   (".r".toList, "r".toList),
   (".jl".toList, "julia".toList),
   (".zig".toList, "zig".toList),
   (".sol".toList, "solidity".toList),
   (".sh".toList, "bash".toList),
   (".bash".toList, "bash".toList)]

/-- The `_WORKSPACE_DIRS` monorepo top-level directory names. -/
def WORKSPACE_DIRS : List Str :=
  ["crates".toList, "packages".toList, "apps".toList, "libs".toList,
   "modules".toList, "services".toList, "projects".toList,
   "components".toList, "plugins".toList, "extensions".toList,
   "workspaces".toList, "internal".toList, "cmd".toList, "pkg".toList]

/-- `pathlib.Path(uri).parts` for the relative POSIX-style URIs SARIF
carries: split on the separator, dropping empty and `.` components. -/
def pathParts (uri : Str) : List Str :=
  (uri.splitOn '/').filter (fun p => p ≠ [] ∧ p ≠ ['.'])

/-- `pathlib.Path(uri).name`: the final path component. -/
def pathName (uri : Str) : Str := (pathParts uri).getLastD []

/-- `pathlib.Path(...).suffix` of a file name: from the last dot on,
provided that dot is neither the first nor the last character. -/
def nameSuffix (name : Str) : Str :=
  match name.reverse.findIdx? (fun c => c = '.') with
  | none => []
  | some j =>
    if 0 < name.length - 1 - j ∧ 0 < j then
      name.drop (name.length - 1 - j)
    else []

/-- `SmellLocation` dataclass of `fix_smells.py`. -/
structure SmellLocation where
  uri : Str
  start_line : Int
  start_column : Int
  end_line : Int
  end_column : Int
  language : Str := []
deriving DecidableEq, Repr

namespace SmellLocation

/-- `detected_language`: explicit tag, else `_LANG_MAP` by extension. -/
def detected_language (l : SmellLocation) : Str :=
  if l.language ≠ [] then l.language
  else (LANG_MAP.lookup (toLowerStr (nameSuffix (pathName l.uri)))).getD []

/-- The loop of `module_name`: first workspace dir followed by a part. -/
def moduleScan : List Str → Option Str
  | [] => none
  | [_] => none
  | p :: q :: rest =>
    if p ∈ WORKSPACE_DIRS then some q else moduleScan (q :: rest)

/-- `module_name`: workspace-dir heuristic, else `src`/`lib` fallback. -/
def module_name (l : SmellLocation) : Str :=
  let parts := pathParts l.uri
  match moduleScan parts with
  | some m => m
  | none =>
    match parts with
    | p0 :: p1 :: _ =>
      if p0 = "src".toList ∨ p0 = "lib".toList then p1 else []
    | _ => []

/-- `line_count`: `max(1, end_line - start_line + 1)`. -/
def line_count (l : SmellLocation) : Int :=
  max 1 (l.end_line - l.start_line + 1)

end SmellLocation

/-- `Smell` dataclass of `fix_smells.py`. -/
structure Smell where
  rule_id : Str
  level : Str
  message : Str
  location : SmellLocation
  fingerprints : List (Str × Str) := []
  taxa : List Str := []
deriving DecidableEq, Repr

namespace Smell

/-- `rule_short`: final `:`-separated segment of the rule id. -/
def rule_short (s : Smell) : Str :=
  (s.rule_id.splitOn ':').getLastD []

/-- `function_name`: the `function.name` fingerprint, or empty. -/
def function_name (s : Smell) : Str :=
  (s.fingerprints.lookup "function.name".toList).getD []

/-- `priority`: `RULE_PRIORITY.get(rule_short, Priority.INFO)`. -/
def priority (s : Smell) : Priority :=
  (RULE_PRIORITY.lookup s.rule_short).getD .INFO

/-- Digits of a decimal literal folded into a natural number. -/
def digitsToNat (ds : Str) : Nat :=
  ds.foldl (fun n c => n * 10 + (c.toNat - 48)) 0

/-- Attempt the regex `count\s*=\s*(\d+)` at the head of the text (the
pattern is deterministic, so greedy matching needs no backtracking). -/
def matchCountAt (l : Str) : Option Nat :=
  if "count".toList.isPrefixOf l then
    match (l.drop 5).dropWhile Char.isWhitespace with
    | '=' :: rest =>
      let ds := (rest.dropWhile Char.isWhitespace).takeWhile Char.isDigit
      if ds = [] then none else some (digitsToNat ds)
    | _ => none
  else none

/-- `re.search`: try the pattern at each position, left to right. -/
def searchCount : Str → Option Nat
  | [] => none
  | c :: rest => (matchCountAt (c :: rest)).orElse (fun _ => searchCount rest)

/-- `complexity_count`: count extracted from the message, if any. -/
def complexity_count (s : Smell) : Option Nat :=
  searchCount s.message

/-- `severity_score`: priority base + capped span + complexity. -/
def severity_score (s : Smell) : ℚ :=
  let base : ℚ := ((6 - s.priority.ord : Int) : ℚ) * 10
  let span : Int := min s.location.line_count 100
  let cc : Nat := (s.complexity_count).getD 0
  base + (span : ℚ) * 0.3 + (cc : ℚ) * 0.5

end Smell

end FixSmells

namespace Sarif

/-- A SARIF `region` object (every field optional in JSON). -/
structure Region where
  startLine : Option Int := none
  startColumn : Option Int := none
  endLine : Option Int := none
  endColumn : Option Int := none
  sourceLanguage : Option Str := none
deriving DecidableEq, Repr

instance : Inhabited Region := ⟨{}⟩

/-- A SARIF `artifactLocation` object. -/
structure ArtifactLocation where
  uri : Option Str := none
deriving DecidableEq, Repr

instance : Inhabited ArtifactLocation := ⟨{}⟩

/-- A SARIF `physicalLocation` object. -/
structure PhysicalLocation where
  artifactLocation : Option ArtifactLocation := none
  region : Option Region := none
deriving DecidableEq, Repr

instance : Inhabited PhysicalLocation := ⟨{}⟩

/-- One entry of a result's `locations` array. -/
structure ResultLoc where
  physicalLocation : Option PhysicalLocation := none
deriving DecidableEq, Repr

/-- One entry of a result's `taxa` array. -/
structure TaxRef where
  id : Option Str := none
deriving DecidableEq, Repr

/-- A SARIF `result` object (the fields the two parsers read). -/
structure SarifResult where
  ruleId : Option Str := none
  level : Option Str := none
  messageText : Option Str := none
  locations : List ResultLoc := []
  partialFingerprints : List (Str × Str) := []
  fingerprints : List (Str × Str) := []
  taxa : List TaxRef := []
deriving DecidableEq, Repr

/-- A SARIF `run` object. -/
structure Run where
  results : List SarifResult := []
deriving DecidableEq, Repr

/-- A SARIF findings document. -/
structure Doc where
  version : Option Str := none
  runs : List Run := []
deriving DecidableEq, Repr

/-- The `uri` reachable from one `locations` entry through the chain of
defaulted lookups `physicalLocation` → `artifactLocation` → `uri`. -/
def locUri (l : ResultLoc) : Str :=
  ((l.physicalLocation.getD default).artifactLocation.getD default).uri.getD []

/-- The `region` reachable from one `locations` entry. -/
def locRegion (l : ResultLoc) : Region :=
  (l.physicalLocation.getD default).region.getD default

end Sarif

namespace FixSmells

open Sarif

/-- `_extract_location` of `fix_smells.py`: first location of a result,
`None` when there is no location or the URI is missing/empty. -/
def extractLocation (result : SarifResult) : Option SmellLocation :=
  match result.locations with
  | [] => none
  | l0 :: _ =>
    let uri := locUri l0
    let region := locRegion l0
    if uri = [] then none
    else
      some { uri := uri,
             start_line := region.startLine.getD 0,
             start_column := region.startColumn.getD 0,
             end_line := region.endLine.getD 0,
             end_column := region.endColumn.getD 0,
             language := region.sourceLanguage.getD [] }

/-- The `Smell` built by `parse_sarif` from one result, skipping
results whose location cannot be extracted. -/
def parseResult (result : SarifResult) : Option Smell :=
  match extractLocation result with
  | none => none
  | some loc =>
    some { rule_id := result.ruleId.getD [],
           level := result.level.getD "warning".toList,
           message := result.messageText.getD [],
           location := loc,
           fingerprints := result.partialFingerprints,
           taxa := result.taxa.map (fun t => t.id.getD []) }

/-- `parse_sarif` of `fix_smells.py` (the version-mismatch warning is a
log line and does not affect the parsed value). -/
def parse_sarif (doc : Doc) : List Smell :=
  doc.runs.flatMap (fun run => run.results.filterMap parseResult)

/-- A fix strategy record: short rule name and auto-fixability (the
remediation title/instruction texts play no role in any claim and are
elided; `attempt_fix` invokes the external ast-grep subprocess and is
outside the shallow embedding). -/
structure FixStrategy where
  rule : Str
  auto_fixable : Bool := false
deriving DecidableEq, Repr

/-- The `_BUILTIN_STRATEGIES` instances, in registration order.  Only
`NestedControlFlowStrategy` and `BooleanLogicStrategy` set
`auto_fixable = True`. -/
def builtinStrategies : List FixStrategy :=
  [{ rule := "identical-code".toList },
   { rule := "similar-code".toList },
   { rule := "function-complexity".toList },
   { rule := "method-complexity".toList },
   { rule := "cognitive-complexity".toList },
   { rule := "nested-control-flow".toList, auto_fixable := true },
   { rule := "deep-nesting".toList },
   { rule := "file-complexity".toList },
   { rule := "long-method".toList },
   { rule := "large-class".toList },
   { rule := "god-class".toList },
   { rule := "feature-envy".toList },
   { rule := "data-clump".toList },
   { rule := "boolean-logic".toList, auto_fixable := true },
   { rule := "complex-condition".toList },
   { rule := "function-parameters".toList },
   { rule := "too-many-arguments".toList },
   { rule := "return-statements".toList }]

/-- Python dict assignment `d[k] = v`: replace in place if the key is
present, else append (insertion order preserved). -/
def dictInsert (reg : List (Str × FixStrategy)) (k : Str) (v : FixStrategy) :
    List (Str × FixStrategy) :=
  if reg.any (fun kv => kv.1 = k) then
    reg.map (fun kv => if kv.1 = k then (k, v) else kv)
  else reg ++ [(k, v)]

/-- `STRATEGY_REGISTRY` after `_register_builtins()`. -/
def STRATEGY_REGISTRY : List (Str × FixStrategy) :=
  builtinStrategies.foldl (fun reg s => dictInsert reg s.rule s) []

/-- `get_strategy`: registry lookup by short rule name. -/
def get_strategy (rule : Str) : Option FixStrategy :=
  STRATEGY_REGISTRY.lookup rule

/-- `Priority[name]` (member lookup by name), as used by the priority
filter after upper-casing; `none` models the `KeyError` branch. -/
def parsePriority (s : Str) : Option Priority :=
  if s = "CRITICAL".toList then some .CRITICAL
  else if s = "HIGH".toList then some .HIGH
  else if s = "MEDIUM".toList then some .MEDIUM
  else if s = "LOW".toList then some .LOW
  else if s = "INFO".toList then some .INFO
  else none

/-- `filter_smells` of `fix_smells.py`.  Empty filter strings are falsy
in Python, so they leave the list untouched; an unknown priority name
only logs a warning. -/
def filter_smells (smells : List Smell)
    (file_filter rule_filter module_filter priority_filter
      language_filter : Option Str)
    (min_severity : Option ℚ) : List Smell :=
  let out := smells
  let out := match file_filter with
    | some f =>
      if f ≠ [] then out.filter (fun s => containsSub s.location.uri f) else out
    | none => out
  let out := match rule_filter with
    | some r =>
      if r ≠ [] then out.filter (fun s => containsSub s.rule_short r) else out
    | none => out
  let out := match module_filter with
    | some m =>
      if m ≠ [] then
        out.filter (fun s => containsSub s.location.module_name m)
      else out
    | none => out
  let out := match language_filter with
    | some lang =>
      if lang ≠ [] then
        let lf := toLowerStr lang
        out.filter (fun s => s.location.detected_language = lf)
      else out
    | none => out
  let out := match priority_filter with
    | some p =>
      if p ≠ [] then
        match parsePriority (toUpperStr p) with
        | some prio => out.filter (fun s => s.priority = prio)
        | none => out
      else out
    | none => out
  let out := match min_severity with
    | some ms => out.filter (fun s => ms ≤ s.severity_score)
    | none => out
  out

end FixSmells

namespace FixSmells

open Sarif

/-- Output events of the Plan view (`report_plan`): full remediation
guidance (`generate_fix_instruction`) or the one-line cross-reference
printed for repeated (rule, function) keys within a file. -/
inductive PlanEvent where
  | full (s : Smell)
  | crossRef (s : Smell)
deriving DecidableEq, Repr

/-- The de-duplication key of `report_plan`:
`f"{s.rule_short}:{s.function_name or 'file'}"`. -/
def planKey (s : Smell) : Str :=
  s.rule_short ++ ':' :: (if s.function_name = [] then "file".toList
    else s.function_name)

/-- The per-file emission loop of `report_plan`: first occurrence of a
key prints full guidance and records the key in `seen`; repeats print
the cross-reference line. -/
def dedupEmit : List Smell → List Str → List PlanEvent
  | [], _ => []
  | s :: rest, seen =>
    if planKey s ∈ seen then .crossRef s :: dedupEmit rest seen
    else .full s :: dedupEmit rest (planKey s :: seen)

/-- Keys of a `defaultdict` grouping, in first-occurrence order (each
new key is appended the first time the loop meets it). -/
def dedupFirst (l : List Str) : List Str :=
  l.foldl (fun acc x => if x ∈ acc then acc else acc ++ [x]) []

/-- `len(by_file[u])`: how many of `items` sit in file `u`. -/
def countFile (items : List Smell) (u : Str) : Nat :=
  (items.filter (fun s => s.location.uri = u)).length

/-- `sorted(fs, key=lambda x: x.location.start_line)` order (Python
sorts are stable; `List.insertionSort` with a total preorder is the
same stable sort). -/
def startLE (a b : Smell) : Prop :=
  a.location.start_line ≤ b.location.start_line

instance : DecidableRel startLE := fun a b =>
  inferInstanceAs (Decidable (a.location.start_line ≤ b.location.start_line))

/-- `sorted(by_file, key=lambda u: -len(by_file[u]))` order: descending
group size. -/
def countGE (items : List Smell) (u v : Str) : Prop :=
  countFile items v ≤ countFile items u

instance (items : List Smell) : DecidableRel (countGE items) := fun u v =>
  inferInstanceAs (Decidable (countFile items v ≤ countFile items u))

/-- One file section of the Plan view: smells of one file sorted by
start line, emitted through the per-file `seen` set. -/
def planFileEvents (fs : List Smell) : List PlanEvent :=
  dedupEmit (fs.insertionSort startLE) []

/-- One priority section of the Plan view: group the tier's smells by
file (insertion order), visit files by descending smell count, emit
each file's events. -/
def planPrioEvents (items : List Smell) : List PlanEvent :=
  let uris := dedupFirst (items.map (fun s => s.location.uri))
  (uris.insertionSort (countGE items)).flatMap
    (fun uri => planFileEvents (items.filter (fun s => s.location.uri = uri)))

/-- The guidance events of `report_plan`: priority tiers in enum order,
each tier grouped by file (empty tiers contribute nothing). -/
def planEvents (smells : List Smell) : List PlanEvent :=
  priorityList.flatMap
    (fun prio => planPrioEvents (smells.filter (fun s => s.priority = prio)))

/-- The selection predicate of `apply_fixes`:
`(st := get_strategy(s.rule_short)) and st.auto_fixable`. -/
def isAutoFixable (s : Smell) : Bool :=
  match get_strategy s.rule_short with
  | some st => st.auto_fixable
  | none => false

/-- `fixable`: the auto-fixable subset, in input order. -/
def fixableOf (smells : List Smell) : List Smell :=
  smells.filter isAutoFixable

/-- `sorted(fixable, key=lambda s: (-s.severity_score, s.location.uri))`
order: descending severity score, then file path. -/
def fixKeyLE (a b : Smell) : Prop :=
  b.severity_score < a.severity_score ∨
    (a.severity_score = b.severity_score ∧ strLe a.location.uri b.location.uri = true)

instance : DecidableRel fixKeyLE := fun a b =>
  inferInstanceAs (Decidable (b.severity_score < a.severity_score ∨
    (a.severity_score = b.severity_score ∧
      strLe a.location.uri b.location.uri = true)))

/-- The order in which `apply_fixes` attempts the fixable smells. -/
def fixOrder (smells : List Smell) : List Smell :=
  (fixableOf smells).insertionSort fixKeyLE

/-- The exit code of `main()` on the no-`--scan` path, as a function of
whether the SARIF file exists and of the parsed smell list (the report
actions only print / write files and fall through to a normal exit). -/
def mainExitCode (sarifExists : Bool) (smells : List Smell)
    (file_filter rule_filter module_filter priority_filter
      language_filter : Option Str)
    (min_severity : Option ℚ) : Nat :=
  if ¬ sarifExists then 1
  else
    let filtered := filter_smells smells file_filter rule_filter module_filter
      priority_filter language_filter min_severity
    if filtered = [] then 0
    else 0

end FixSmells

namespace Qlty

open Sarif

/-- `Severity(IntEnum)` of `qlty/model.py`. -/
inductive Severity where
  | ERROR
  | WARNING
  | INFO
  | NONE
deriving DecidableEq, Repr

/-- `Severity.from_str`: case-insensitive mapping, default `NONE`. -/
def Severity.from_str (s : Str) : Severity :=
  if toLowerStr s = "error".toList then .ERROR
  else if toLowerStr s = "warning".toList then .WARNING
  else if toLowerStr s = "note".toList then .INFO
  else .NONE

/-- `SarifIssue` dataclass of `qlty/model.py` (the `help_uri` and
`metadata` fields are carried but never read by any claim). -/
structure SarifIssue where
  rule_id : Str
  level : Severity
  message : Str
  file_path : Str
  start_line : Int
  end_line : Option Int := none
  category : Str := []
  fingerprints : List (Str × Str) := []
deriving DecidableEq, Repr

/-- `rule_category`: namespace prefix of the rule id, or `"unknown"`. -/
def SarifIssue.rule_category (i : SarifIssue) : Str :=
  if ':' ∈ i.rule_id then (i.rule_id.splitOn ':').headD []
  else "unknown".toList

/-- The issue built by `parse_sarif_file` from one result (`None` when
the result has no locations; note the URI defaults to `"unknown"` and a
missing `endLine` defaults to `startLine`). -/
def parseResult (result : SarifResult) : Option SarifIssue :=
  match result.locations with
  | [] => none
  | l0 :: _ =>
    let region := locRegion l0
    let start_line := region.startLine.getD 0
    some { rule_id := result.ruleId.getD "unknown".toList,
           level := Severity.from_str (result.level.getD "note".toList),
           message := result.messageText.getD [],
           file_path :=
             ((l0.physicalLocation.getD default).artifactLocation.getD
               default).uri.getD "unknown".toList,
           start_line := start_line,
           end_line := some (region.endLine.getD start_line),
           fingerprints :=
             if result.partialFingerprints = [] then result.fingerprints
             else result.partialFingerprints }

/-- `parse_sarif_file` of `qlty/parser.py`. -/
def parse_sarif_file (doc : Doc) : List SarifIssue :=
  doc.runs.flatMap (fun run => run.results.filterMap parseResult)

/-- One `Counter` increment: `c[k] += 1`. -/
def counterAdd {K : Type} [DecidableEq K] (c : K → Nat) (k : K) : K → Nat :=
  fun k2 => if k2 = k then c k2 + 1 else c k2

/-- A `Counter` built by one loop over the issues, keyed by `key`. -/
def counterOf {K : Type} [DecidableEq K] (key : SarifIssue → K)
    (issues : List SarifIssue) : K → Nat :=
  issues.foldl (fun c i => counterAdd c (key i)) (fun _ => 0)

/-- `AnalysisReport` of `qlty/report.py` (the derived `top_files` /
`top_rules` lists are not read by any claim and are elided). -/
structure AnalysisReport where
  total_issues : Nat := 0
  by_severity : Severity → Nat := fun _ => 0
  by_rule : Str → Nat := fun _ => 0
  by_category : Str → Nat := fun _ => 0
  by_file : Str → Nat := fun _ => 0
  issues : List SarifIssue := []

/-- `analyze_issues` of `qlty/report.py`: single pass of counting into
each partition (`_populate_severity_counts`,
`_populate_category_and_rule_counts`, `_populate_file_counts`). -/
def analyze_issues (issues : List SarifIssue) : AnalysisReport :=
  { total_issues := issues.length,
    issues := issues,
    by_severity := counterOf (fun i => i.level) issues,
    by_rule := counterOf (fun i => i.rule_id) issues,
    by_category := counterOf (fun i => i.rule_category) issues,
    by_file := counterOf (fun i => i.file_path) issues }

end Qlty

/-!  ### Claims -/

namespace FixSmells

/-- The severity formula exactly as the specification words it:
`(6 − priority_ordinal) × 10 + min(line_span, 100) × 0.3 +
(complexity_count or 0) × 0.5`, with
`line_span = max(1, end_line − start_line + 1)`. -/
def severity_score_spec (s : Smell) : ℚ :=
  ((6 - s.priority.ord : Int) : ℚ) * 10 +
    ((min (max 1 (s.location.end_line - s.location.start_line + 1)) 100 : Int) : ℚ)
      * 0.3 +
    (((s.complexity_count).getD 0 : Nat) : ℚ) * 0.5

end FixSmells

/-- C1: for every parsed smell, `severity_score` equals
`(6 − priority ordinal) × 10 + min(line span, 100) × 0.3 +
(complexity count from the message, or 0) × 0.5`, where the line span is
`max(1, end_line − start_line + 1)`. -/
theorem severity_score_eq_spec (s : FixSmells.Smell) :
    s.severity_score = FixSmells.severity_score_spec s := by
  rfl

/-- C3: an issue whose rule short-name is absent from the rule→priority
table derives the lowest-urgency tier `INFO`; the derivation is a total
function (never absent, never an exception). -/
theorem priority_unknown_rule_info (s : FixSmells.Smell)
    (h : FixSmells.RULE_PRIORITY.lookup s.rule_short = none) :
    s.priority = FixSmells.Priority.INFO := by
  unfold FixSmells.Smell.priority
  rw [h]
  rfl

/-- A location shared by the concrete witness inputs. -/
def wLoc : FixSmells.SmellLocation :=
  { uri := "a.py".toList, start_line := 1, start_column := 0,
    end_line := 1, end_column := 0 }

/-- A concrete smell with a rule absent from `RULE_PRIORITY`. -/
def unknownRuleSmell : FixSmells.Smell :=
  { rule_id := "qlty:mystery-rule".toList, level := [], message := [],
    location := wLoc }

/-- Witness for C3 at a concrete smell with an unregistered rule. -/
theorem priority_unknown_rule_info_witness :
    FixSmells.RULE_PRIORITY.lookup unknownRuleSmell.rule_short = none ∧
      unknownRuleSmell.priority = FixSmells.Priority.INFO :=
  ⟨by decide, priority_unknown_rule_info unknownRuleSmell (by decide)⟩

namespace Qlty

/-- Unfolded form of the `Counter` loop: it adds the key multiplicity
of the traversed list to the accumulator. -/
theorem counterOf_loop {K : Type} [DecidableEq K] (key : SarifIssue → K) :
    ∀ (l : List SarifIssue) (c : K → Nat) (k : K),
      (l.foldl (fun c i => counterAdd c (key i)) c) k =
        c k + (l.map key).count k := by
  intro l
  induction l with
  | nil => simp
  | cons i t ih =>
    intro c k
    rw [List.foldl_cons, ih]
    simp only [counterAdd, List.map_cons, List.count_cons]
    rcases eq_or_ne k (key i) with h | h
    · subst h
      simp
      omega
    · simp [h, Ne.symm h]

/-- A `Counter` built over `issues` is the count of the mapped keys. -/
theorem counterOf_eq_count {K : Type} [DecidableEq K] (key : SarifIssue → K)
    (issues : List SarifIssue) (k : K) :
    counterOf key issues k = (issues.map key).count k := by
  simpa using counterOf_loop key issues (fun _ => 0) k

/-- Summing a key-indexed `Counter` of `issues` over the distinct keys
occurring in `issues` recovers the issue count. -/
theorem counter_sum_eq_length {K : Type} [DecidableEq K] (key : SarifIssue → K)
    (issues : List SarifIssue) :
    (((issues.map key).dedup).map (counterOf key issues)).sum = issues.length := by
  calc (((issues.map key).dedup).map (counterOf key issues)).sum
      = (((issues.map key).dedup).map (fun k => (issues.map key).count k)).sum := by
        exact congrArg List.sum (List.map_congr_left
          (fun k _ => counterOf_eq_count key issues k))
    _ = (issues.map key).length := List.sum_map_count_dedup_eq_length _
    _ = issues.length := List.length_map _ _

end Qlty

/-- C2: in the `AnalysisReport` built by `analyze_issues`, the
by-severity counts, the by-rule counts, and the by-file counts each sum
(over the distinct keys of the issue list) to `total_issues`. -/
theorem analyze_issues_partitions_sum (issues : List Qlty.SarifIssue) :
    (((issues.map (fun i => i.level)).dedup).map
        (Qlty.analyze_issues issues).by_severity).sum =
      (Qlty.analyze_issues issues).total_issues ∧
    (((issues.map (fun i => i.rule_id)).dedup).map
        (Qlty.analyze_issues issues).by_rule).sum =
      (Qlty.analyze_issues issues).total_issues ∧
    (((issues.map (fun i => i.file_path)).dedup).map
        (Qlty.analyze_issues issues).by_file).sum =
      (Qlty.analyze_issues issues).total_issues := by
  refine ⟨?_, ?_, ?_⟩ <;>
    simpa [Qlty.analyze_issues] using Qlty.counter_sum_eq_length _ issues

namespace FixSmells

/-- One single-predicate invocation of `filter_smells`. -/
inductive FilterSpec where
  | byFile (f : Str)
  | byRule (r : Str)
  | byModule (m : Str)
  | byLanguage (lang : Str)
  | byPriority (p : Str)
  | byMinSeverity (q : ℚ)

/-- `filter_smells` called with exactly one predicate supplied. -/
def applySingle : FilterSpec → List Smell → List Smell
  | .byFile f, l => filter_smells l (some f) none none none none none
  | .byRule r, l => filter_smells l none (some r) none none none none
  | .byModule m, l => filter_smells l none none (some m) none none none
  | .byLanguage lang, l => filter_smells l none none none none (some lang) none
  | .byPriority p, l => filter_smells l none none none (some p) none none
  | .byMinSeverity q, l => filter_smells l none none none none none (some q)

/-- The pure predicate a single filter applies (or `none` when the
invocation is a no-op: an empty, hence falsy, filter string, or an
unknown priority name). -/
def specPred : FilterSpec → Option (Smell → Bool)
  | .byFile f =>
    if f ≠ [] then some (fun s => containsSub s.location.uri f) else none
  | .byRule r =>
    if r ≠ [] then some (fun s => containsSub s.rule_short r) else none
  | .byModule m =>
    if m ≠ [] then
      some (fun s => containsSub s.location.module_name m)
    else none
  | .byLanguage lang =>
    if lang ≠ [] then
      some (fun s => s.location.detected_language = toLowerStr lang)
    else none
  | .byPriority p =>
    if p ≠ [] then
      match parsePriority (toUpperStr p) with
      | some prio => some (fun s => s.priority = prio)
      | none => none
    else none
  | .byMinSeverity q => some (fun s => q ≤ s.severity_score)

/-- Each single filter invocation either filters by its pure predicate
or leaves the list unchanged. -/
theorem applySingle_eq (F : FilterSpec) (l : List Smell) :
    applySingle F l =
      match specPred F with
      | some p => l.filter p
      | none => l := by
  cases F with
  | byFile f =>
    by_cases hf : f = [] <;> simp [applySingle, filter_smells, specPred, hf]
  | byRule r =>
    by_cases hr : r = [] <;> simp [applySingle, filter_smells, specPred, hr]
  | byModule m =>
    by_cases hm : m = [] <;> simp [applySingle, filter_smells, specPred, hm]
  | byLanguage lang =>
    by_cases hl : lang = [] <;>
      simp [applySingle, filter_smells, specPred, hl]
  | byPriority p =>
    by_cases hp : p = [] <;>
      simp [applySingle, filter_smells, specPred, hp] <;>
      cases parsePriority (toUpperStr p) <;> simp
  | byMinSeverity q => simp [applySingle, filter_smells, specPred]

end FixSmells

/-- C4: any two single-predicate invocations of the filter pipeline
(file substring, rule substring, module substring, language, priority
tier, minimum severity score) commute: A after B equals B after A. -/
theorem filter_pipeline_commutes (A B : FixSmells.FilterSpec)
    (l : List FixSmells.Smell) :
    FixSmells.applySingle A (FixSmells.applySingle B l) =
      FixSmells.applySingle B (FixSmells.applySingle A l) := by
  rcases hA : FixSmells.specPred A with _ | p <;>
    rcases hB : FixSmells.specPred B with _ | q <;>
    simp only [FixSmells.applySingle_eq, hA, hB]
  simp [List.filter_filter, Bool.and_comm]

namespace FixSmells

/-- A location tagged with an explicit `python` language. -/
def pyLoc : SmellLocation :=
  { uri := "m.rs".toList, start_line := 1, start_column := 0,
    end_line := 1, end_column := 0, language := "python".toList }

/-- A concrete smell whose inferred language is `python`. -/
def pySmell : Smell :=
  { rule_id := "x".toList, level := [], message := [], location := pyLoc }

end FixSmells

/-- C9 counterexample: the language filter string `"py"` is a substring
of the smell's inferred language `"python"`, yet `filter_smells` drops
the smell — the filter is an exact match, not substring containment. -/
theorem language_filter_substring_counterexample :
    containsSub FixSmells.pySmell.location.detected_language "py".toList = true ∧
      FixSmells.filter_smells [FixSmells.pySmell] none none none none
        (some "py".toList) none = [] := by
  exact ⟨by decide, by decide⟩

/-- C9 amended: for a non-empty language filter string L, filtering by
language retains exactly the smells whose inferred language *equals*
the lowercased L. -/
theorem language_filter_exact (l : List FixSmells.Smell) (L : Str)
    (hL : L ≠ []) (s : FixSmells.Smell) :
    s ∈ FixSmells.filter_smells l none none none none (some L) none ↔
      s ∈ l ∧ s.location.detected_language = toLowerStr L := by
  simp [FixSmells.filter_smells, hL, List.mem_filter]

/-- Witness for C9 amended: the smell with inferred language `python`
survives the (case-insensitive) filter string `PYTHON`. -/
theorem language_filter_exact_witness :
    FixSmells.pySmell ∈ FixSmells.filter_smells [FixSmells.pySmell] none none
      none none (some "PYTHON".toList) none :=
  (language_filter_exact [FixSmells.pySmell] "PYTHON".toList (by decide)
    FixSmells.pySmell).2 ⟨List.mem_singleton.2 rfl, by decide⟩

/-- C8 counterexample: with the SARIF file present and an empty smell
set remaining after filters, `main` exits with code 0 (it prints
"No smells match the given filters." and calls `sys.exit(0)`), not 1 as
claimed. -/
theorem exit_code_empty_counterexample :
    FixSmells.filter_smells ([] : List FixSmells.Smell) none none none none
        none none = [] ∧
      FixSmells.mainExitCode true [] none none none none none none = 0 := by
  exact ⟨rfl, rfl⟩

/-- C8 amended: on the no-scan path, `main` exits 1 exactly when the
findings file is missing; with the file present it exits 0 both when
the filtered set is empty (after printing a notice) and on success with
issues reported. -/
theorem main_exit_codes (smells : List FixSmells.Smell)
    (ff rf mf pf lf : Option Str) (ms : Option ℚ) :
    FixSmells.mainExitCode false smells ff rf mf pf lf ms = 1 ∧
      (FixSmells.filter_smells smells ff rf mf pf lf ms = [] →
        FixSmells.mainExitCode true smells ff rf mf pf lf ms = 0) ∧
      (FixSmells.filter_smells smells ff rf mf pf lf ms ≠ [] →
        FixSmells.mainExitCode true smells ff rf mf pf lf ms = 0) := by
  refine ⟨rfl, fun h => ?_, fun h => ?_⟩ <;>
    simp [FixSmells.mainExitCode, h]

/-- Witness for C8 amended at concrete inputs. -/
theorem main_exit_codes_witness :
    FixSmells.mainExitCode false [] none none none none none none = 1 ∧
      FixSmells.mainExitCode true [] none none none none none none = 0 :=
  ⟨(main_exit_codes [] none none none none none none).1,
    (main_exit_codes [] none none none none none none).2.1 rfl⟩

namespace Sarif

/-- A region carrying a start line but no end line. -/
def regionNoEnd : Region := { startLine := some 10 }

/-- A `locations` entry with URI `a.py` and `regionNoEnd`. -/
def locNoEnd : ResultLoc :=
  { physicalLocation := some
      { artifactLocation := some { uri := some "a.py".toList },
        region := some regionNoEnd } }

/-- A result whose single location is `locNoEnd`. -/
def resultNoEnd : SarifResult :=
  { ruleId := some "qlty:long-method".toList, locations := [locNoEnd] }

/-- A findings document holding only `resultNoEnd`. -/
def docNoEnd : Doc := { runs := [{ results := [resultNoEnd] }] }

end Sarif

/-- C7 counterexample: parsing a result with start line 10 and no end
line through `fix_smells.parse_sarif` yields a location whose end line
is 0, not the start line. -/
theorem end_line_default_counterexample :
    (FixSmells.parse_sarif Sarif.docNoEnd).map
        (fun s => (s.location.start_line, s.location.end_line)) =
      [((10 : Int), (0 : Int))] ∧ (0 : Int) ≠ 10 := by
  exact ⟨by decide, by decide⟩

/-- C7 amended: when a result's first location carries no end line, the
`qlty` parser (`parse_sarif_file`) defaults the end line to the start
line, while the `fix_smells` parser (`_extract_location`) defaults it
to 0 (its `line_count` then clamps the span to 1). -/
theorem end_line_defaults (r : Sarif.SarifResult) (l0 : Sarif.ResultLoc)
    (rest : List Sarif.ResultLoc) (hloc : r.locations = l0 :: rest)
    (hend : (Sarif.locRegion l0).endLine = none) :
    (∀ loc, FixSmells.extractLocation r = some loc →
        loc.start_line = (Sarif.locRegion l0).startLine.getD 0 ∧
          loc.end_line = 0) ∧
      (∀ i, Qlty.parseResult r = some i →
        i.start_line = (Sarif.locRegion l0).startLine.getD 0 ∧
          i.end_line = some ((Sarif.locRegion l0).startLine.getD 0)) := by
  constructor
  · intro loc hl
    unfold FixSmells.extractLocation at hl
    rw [hloc] at hl
    by_cases hu : Sarif.locUri l0 = []
    · simp [hu] at hl
    · simp only [hu, if_false, Option.some.injEq] at hl
      cases hl
      simp [hend]
  · intro i hi
    unfold Qlty.parseResult at hi
    rw [hloc] at hi
    cases hi
    simp [hend]

/-- The location `_extract_location` builds from `resultNoEnd`. -/
def extractedNoEnd : FixSmells.SmellLocation :=
  { uri := "a.py".toList, start_line := 10, start_column := 0,
    end_line := 0, end_column := 0 }

/-- Witness for C7 amended at the concrete `resultNoEnd`. -/
theorem end_line_defaults_witness :
    extractedNoEnd.start_line =
        (Sarif.locRegion Sarif.locNoEnd).startLine.getD 0 ∧
      extractedNoEnd.end_line = 0 :=
  (end_line_defaults Sarif.resultNoEnd Sarif.locNoEnd [] rfl (by decide)).1
    extractedNoEnd (by decide)

namespace FixSmells

/-- A location yielded by `_extract_location` always carries the
non-empty URI that guarded its construction. -/
theorem extractLocation_uri_ne (r : Sarif.SarifResult)
    (loc : SmellLocation) (h : extractLocation r = some loc) :
    loc.uri ≠ [] := by
  unfold extractLocation at h
  cases hl : r.locations with
  | nil => rw [hl] at h; exact absurd h (by simp)
  | cons l0 rest =>
    rw [hl] at h
    by_cases hu : Sarif.locUri l0 = []
    · simp [hu] at h
    · simp only [hu, if_false, Option.some.injEq] at h
      cases h
      exact hu

/-- A smell produced by `parse_sarif`'s per-result step keeps the
location `_extract_location` produced. -/
theorem parseResult_uri_ne (r : Sarif.SarifResult) (s : Smell)
    (h : parseResult r = some s) : s.location.uri ≠ [] := by
  unfold parseResult at h
  cases he : extractLocation r with
  | none => rw [he] at h; exact absurd h (by simp)
  | some loc =>
    rw [he] at h
    cases h
    exact extractLocation_uri_ne r loc he

end FixSmells

/-- C10: every smell returned by `parse_sarif` has a non-empty location
URI; a result with no locations, and a result whose first location has
a missing or empty URI, are both dropped (`_extract_location` returns
`None` and the parse loop skips them). -/
theorem parse_sarif_uri_invariant (doc : Sarif.Doc) :
    (∀ s ∈ FixSmells.parse_sarif doc, s.location.uri ≠ []) ∧
      (∀ r : Sarif.SarifResult, r.locations = [] →
        FixSmells.extractLocation r = none) ∧
      (∀ (r : Sarif.SarifResult) (l0 : Sarif.ResultLoc)
          (rest : List Sarif.ResultLoc), r.locations = l0 :: rest →
        Sarif.locUri l0 = [] → FixSmells.extractLocation r = none) := by
  refine ⟨?_, ?_, ?_⟩
  · intro s hs
    simp only [FixSmells.parse_sarif, List.mem_flatMap,
      List.mem_filterMap] at hs
    obtain ⟨run, _, r, _, hr⟩ := hs
    exact FixSmells.parseResult_uri_ne r s hr
  · intro r hr
    unfold FixSmells.extractLocation
    rw [hr]
  · intro r l0 rest hr hu
    unfold FixSmells.extractLocation
    rw [hr]
    simp [hu]

/-- The smell `parse_sarif` produces from `docNoEnd`. -/
def smellNoEnd : FixSmells.Smell :=
  { rule_id := "qlty:long-method".toList, level := "warning".toList,
    message := [], location := extractedNoEnd }

/-- Witness for C10 at the concrete document `docNoEnd`, whose single
smell has URI `a.py`. -/
theorem parse_sarif_uri_invariant_witness :
    smellNoEnd.location.uri ≠ [] :=
  (parse_sarif_uri_invariant Sarif.docNoEnd).1 smellNoEnd (by decide)

/-- Unfolding of `strLe` on two cons cells. -/
theorem strLe_cons_iff (a b : Char) (as bs : Str) :
    strLe (a :: as) (b :: bs) = true ↔
      a < b ∨ (a = b ∧ strLe as bs = true) := by
  simp only [strLe]
  rcases lt_trichotomy a b with h | h | h
  · simp [h]
  · subst h
    simp [lt_irrefl]
  · simp [h, lt_asymm h, ne_of_gt h]

/-- `strLe` is total. -/
theorem strLe_total : ∀ a b : Str, strLe a b = true ∨ strLe b a = true
  | [], _ => Or.inl rfl
  | _ :: _, [] => Or.inr rfl
  | a :: as, b :: bs => by
    rcases lt_trichotomy a b with h | h | h
    · exact Or.inl ((strLe_cons_iff a b as bs).2 (Or.inl h))
    · subst h
      rcases strLe_total as bs with h2 | h2
      · exact Or.inl ((strLe_cons_iff a a as bs).2 (Or.inr ⟨rfl, h2⟩))
      · exact Or.inr ((strLe_cons_iff a a bs as).2 (Or.inr ⟨rfl, h2⟩))
    · exact Or.inr ((strLe_cons_iff b a bs as).2 (Or.inl h))

/-- `strLe` is transitive. -/
theorem strLe_trans : ∀ a b c : Str,
    strLe a b = true → strLe b c = true → strLe a c = true
  | [], _, _, _, _ => rfl
  | _ :: _, [], _, h, _ => by simp [strLe] at h
  | _ :: _, _ :: _, [], _, h => by simp [strLe] at h
  | a :: as, b :: bs, c :: cs, h1, h2 => by
    rw [strLe_cons_iff] at h1 h2 ⊢
    rcases h1 with h1 | ⟨rfl, h1⟩
    · rcases h2 with h2 | ⟨rfl, h2⟩
      · exact Or.inl (lt_trans h1 h2)
      · exact Or.inl h1
    · rcases h2 with h2 | ⟨rfl, h2⟩
      · exact Or.inl h2
      · exact Or.inr ⟨rfl, strLe_trans as bs cs h1 h2⟩

namespace FixSmells

instance : IsTotal Smell fixKeyLE := by
  constructor
  intro a b
  rcases lt_trichotomy a.severity_score b.severity_score with h | h | h
  · exact Or.inr (Or.inl h)
  · rcases strLe_total a.location.uri b.location.uri with h2 | h2
    · exact Or.inl (Or.inr ⟨h, h2⟩)
    · exact Or.inr (Or.inr ⟨h.symm, h2⟩)
  · exact Or.inl (Or.inl h)

instance : IsTrans Smell fixKeyLE := by
  constructor
  intro a b c h1 h2
  rcases h1 with h1 | ⟨he1, hs1⟩
  · rcases h2 with h2 | ⟨he2, hs2⟩
    · exact Or.inl (lt_trans h2 h1)
    · exact Or.inl (he2 ▸ h1)
  · rcases h2 with h2 | ⟨he2, hs2⟩
    · exact Or.inl (he1 ▸ h2)
    · exact Or.inr ⟨he1.trans he2, strLe_trans _ _ _ hs1 hs2⟩

/-- A LOW-priority `boolean-logic` smell spanning 120 lines (score
`20 + 30 = 50`). -/
def sBool : Smell :=
  { rule_id := "qlty:boolean-logic".toList, level := "warning".toList,
    message := [], location :=
      { uri := "a.py".toList, start_line := 1, start_column := 0,
        end_line := 120, end_column := 0 } }

/-- A MEDIUM-priority `nested-control-flow` smell spanning one line
(score `30 + 0.3 = 30.3`). -/
def sNest : Smell :=
  { rule_id := "qlty:nested-control-flow".toList, level := "warning".toList,
    message := [], location :=
      { uri := "b.py".toList, start_line := 5, start_column := 0,
        end_line := 5, end_column := 0 } }

end FixSmells

/-- C6 counterexample: both smells are auto-fixable, yet the dispatcher
attempts the LOW-tier `boolean-logic` smell (ordinal 4, score 50)
before the MEDIUM-tier `nested-control-flow` smell (ordinal 3, score
30.3) — the order is by severity score, not priority-then-file. -/
theorem apply_fixes_priority_counterexample :
    FixSmells.fixOrder [FixSmells.sNest, FixSmells.sBool] =
        [FixSmells.sBool, FixSmells.sNest] ∧
      FixSmells.sBool.priority = FixSmells.Priority.LOW ∧
      FixSmells.sNest.priority = FixSmells.Priority.MEDIUM ∧
      FixSmells.Priority.ord FixSmells.Priority.MEDIUM <
        FixSmells.Priority.ord FixSmells.Priority.LOW := by
  have hb : FixSmells.sBool.severity_score = 50 := by
    have h1 : FixSmells.sBool.priority = FixSmells.Priority.LOW := by decide
    have h2 : FixSmells.sBool.location.line_count = 120 := by decide
    have h3 : FixSmells.sBool.complexity_count = none := by decide
    simp only [FixSmells.Smell.severity_score, h1, h2, h3,
      FixSmells.Priority.ord]
    norm_num [min_def]
  have hn : FixSmells.sNest.severity_score = 303 / 10 := by
    have h1 : FixSmells.sNest.priority = FixSmells.Priority.MEDIUM := by decide
    have h2 : FixSmells.sNest.location.line_count = 1 := by decide
    have h3 : FixSmells.sNest.complexity_count = none := by decide
    simp only [FixSmells.Smell.severity_score, h1, h2, h3,
      FixSmells.Priority.ord]
    norm_num [min_def]
  have hkey : ¬ FixSmells.fixKeyLE FixSmells.sNest FixSmells.sBool := by
    simp only [FixSmells.fixKeyLE, hb, hn]
    norm_num
  have hfil : FixSmells.fixableOf [FixSmells.sNest, FixSmells.sBool] =
      [FixSmells.sNest, FixSmells.sBool] := by decide
  refine ⟨?_, by decide, by decide, by decide⟩
  rw [FixSmells.fixOrder, hfil]
  simp [List.insertionSort, List.orderedInsert, hkey]

/-- C6 amended: `apply_fixes` selects exactly the issues whose
registered strategy is auto-fixable and attempts them in descending
severity-score order with ties broken by file path (a lower-priority
issue with a higher score is attempted first). -/
theorem apply_fixes_order (smells : List FixSmells.Smell) :
    (FixSmells.fixOrder smells).Perm (FixSmells.fixableOf smells) ∧
      List.Sorted FixSmells.fixKeyLE (FixSmells.fixOrder smells) ∧
      FixSmells.fixableOf smells = smells.filter FixSmells.isAutoFixable :=
  ⟨List.perm_insertionSort _ _, List.sorted_insertionSort _ _, rfl⟩

namespace FixSmells

/-- `priority` only looks at `rule_short`. -/
theorem priority_congr (s1 s2 : Smell) (h : s1.rule_short = s2.rule_short) :
    s1.priority = s2.priority := by
  unfold Smell.priority
  rw [h]

/-- `planKey` is determined by `rule_short` and `function_name`. -/
theorem planKey_congr (s1 s2 : Smell) (hr : s1.rule_short = s2.rule_short)
    (hf : s1.function_name = s2.function_name) :
    planKey s1 = planKey s2 := by
  unfold planKey
  rw [hr, hf]

/-- An empty priority group contributes no events. -/
theorem planPrioEvents_nil : planPrioEvents [] = [] := by
  simp [planPrioEvents, dedupFirst]

/-- For a two-smell list of one shared priority tier, only that tier's
group is non-empty in the Plan traversal. -/
theorem planEvents_pair (s1 s2 : Smell) (hp : s2.priority = s1.priority) :
    planEvents [s1, s2] = planPrioEvents [s1, s2] := by
  unfold planEvents priorityList
  cases h1 : s1.priority <;>
    rw [h1] at hp <;>
    simp [List.filter_cons, List.filter_nil, hp, h1, planPrioEvents_nil]

/-- Plan emission for one priority group of two smells in one file:
the start-line-earlier smell gets full guidance, the other only the
cross-reference (Python's sort is stable, so a tie keeps input order). -/
theorem planPrioEvents_same_file (s1 s2 : Smell)
    (hu : s1.location.uri = s2.location.uri)
    (hk : planKey s1 = planKey s2) :
    planPrioEvents [s1, s2] =
      if s2.location.start_line < s1.location.start_line
      then [.full s2, .crossRef s1]
      else [.full s1, .crossRef s2] := by
  unfold planPrioEvents
  have h1 : dedupFirst [s1.location.uri, s2.location.uri] =
      [s1.location.uri] := by
    simp [dedupFirst, hu]
  simp only [List.map_cons, List.map_nil, h1, List.insertionSort,
    List.orderedInsert, List.flatMap_cons, List.flatMap_nil, List.append_nil]
  have h2 : List.filter (fun s => s.location.uri = s1.location.uri) [s1, s2] =
      [s1, s2] := by
    simp [List.filter_cons, hu]
  rw [h2]
  unfold planFileEvents
  simp only [List.insertionSort, List.orderedInsert]
  by_cases hle : startLE s1 s2
  · rw [if_pos hle, if_neg (by exact not_lt.2 hle)]
    simp [dedupEmit, hk]
  · rw [if_neg hle, if_pos (by exact lt_of_not_le hle)]
    simp [dedupEmit, hk.symm]

/-- Plan emission for one priority group of two smells in different
files: both get full guidance (the `seen` set is reset per file). -/
theorem planPrioEvents_diff_file (s1 s2 : Smell)
    (hu : s1.location.uri ≠ s2.location.uri) :
    planPrioEvents [s1, s2] = [.full s1, .full s2] := by
  unfold planPrioEvents
  have h1 : dedupFirst [s1.location.uri, s2.location.uri] =
      [s1.location.uri, s2.location.uri] := by
    simp [dedupFirst, Ne.symm hu]
  simp only [List.map_cons, List.map_nil, h1]
  have hf1 : List.filter (fun s => s.location.uri = s1.location.uri) [s1, s2] =
      [s1] := by
    simp [List.filter_cons, Ne.symm hu]
  have hf2 : List.filter (fun s => s.location.uri = s2.location.uri) [s1, s2] =
      [s2] := by
    simp [List.filter_cons, hu]
  have hc : countGE [s1, s2] s1.location.uri s2.location.uri := by
    unfold countGE countFile
    rw [hf1, hf2]
    exact le_refl 1
  simp only [List.insertionSort, List.orderedInsert, if_pos hc,
    List.flatMap_cons, List.flatMap_nil, List.append_nil]
  rw [hf1, hf2]
  unfold planFileEvents
  simp [List.insertionSort, List.orderedInsert, dedupEmit]

end FixSmells

/-- C5: in the Plan view over two issues with identical `rule_short`
and identical function name (both-empty keyed as `file`): in the same
file the start-line-first occurrence emits full guidance and the second
only a one-line cross-reference; in different files both emit full
guidance. -/
theorem plan_view_dedup (s1 s2 : FixSmells.Smell)
    (hr : s1.rule_short = s2.rule_short)
    (hf : s1.function_name = s2.function_name) :
    (s1.location.uri = s2.location.uri →
      FixSmells.planEvents [s1, s2] =
        if s2.location.start_line < s1.location.start_line
        then [FixSmells.PlanEvent.full s2, FixSmells.PlanEvent.crossRef s1]
        else [FixSmells.PlanEvent.full s1, FixSmells.PlanEvent.crossRef s2]) ∧
    (s1.location.uri ≠ s2.location.uri →
      FixSmells.planEvents [s1, s2] =
        [FixSmells.PlanEvent.full s1, FixSmells.PlanEvent.full s2]) := by
  have hp := FixSmells.priority_congr s1 s2 hr
  have hk := FixSmells.planKey_congr s1 s2 hr hf
  exact ⟨fun hu => by
      rw [FixSmells.planEvents_pair s1 s2 hp.symm,
        FixSmells.planPrioEvents_same_file s1 s2 hu hk],
    fun hu => by
      rw [FixSmells.planEvents_pair s1 s2 hp.symm,
        FixSmells.planPrioEvents_diff_file s1 s2 hu]⟩

namespace FixSmells

/-- Location of the later (line 50) witness smell. -/
def planLoc1 : SmellLocation :=
  { uri := "a.py".toList, start_line := 50, start_column := 0,
    end_line := 52, end_column := 0 }

/-- Location of the earlier (line 10) witness smell. -/
def planLoc2 : SmellLocation :=
  { uri := "a.py".toList, start_line := 10, start_column := 0,
    end_line := 12, end_column := 0 }

/-- Witness smell at line 50 of `a.py`, function `go`. -/
def planW1 : Smell :=
  { rule_id := "qlty:similar-code".toList, level := "warning".toList,
    message := [], location := planLoc1,
    fingerprints := [("function.name".toList, "go".toList)] }

/-- Witness smell at line 10 of `a.py`, function `go`. -/
def planW2 : Smell :=
  { rule_id := "qlty:similar-code".toList, level := "warning".toList,
    message := [], location := planLoc2,
    fingerprints := [("function.name".toList, "go".toList)] }

end FixSmells

/-- Witness for C5: same rule, same function, same file — the line-10
smell gets full guidance, the line-50 one the cross-reference. -/
theorem plan_view_dedup_witness :
    FixSmells.planEvents [FixSmells.planW1, FixSmells.planW2] =
      [FixSmells.PlanEvent.full FixSmells.planW2,
        FixSmells.PlanEvent.crossRef FixSmells.planW1] := by
  have h := (plan_view_dedup FixSmells.planW1 FixSmells.planW2
    (by decide) (by decide)).1 rfl
  simpa [FixSmells.planW1, FixSmells.planW2, FixSmells.planLoc1,
    FixSmells.planLoc2] using h
